import Mathlib

/-!
TouchScreenAdapter: geometry state, capacitive and resistive mappings.

A shallow embedding of `TouchScreenAdapter.h`, `AdafruitFT6206TouchScreen.h` and
`AdafruitResistiveTouchScreen.h`.

Conventions of the embedding:

* `uint8_t` / `uint16_t` fields are natural numbers; a value entering such a field is
  reduced modulo `2^8` / `2^16` (`toU16` for the latter).
* `int16_t` values (the driver samples) are integers; the cast `(int16_t)v` of an unsigned
  16-bit value is the two's complement reinterpretation `toI16`.
* `int` and `long` are 32 bits wide, as on the 32-bit boards the library targets; `long`
  arithmetic wraps in two's complement (`wrapLong`).
* The driver read (`getPoint()`) is an input of the mapping functions.
-/

namespace TouchScreenAdapter

/-! ## Machine integers -/

/-- Conversion of an integer to `uint16_t`. -/
def toU16 (v : Int) : Nat := (v % 65536).toNat

/-- The cast `(int16_t)v`: two's complement reinterpretation of the low 16 bits. -/
def toI16 (v : Int) : Int := (v + 32768) % 65536 - 32768

/-- A 32-bit `long` result: two's complement wrap-around. -/
def wrapLong (v : Int) : Int := (v + 2147483648) % 4294967296 - 2147483648

/-! ## Data model (`TouchScreenAdapter.h`) -/

/-- The struct `TouchPoint`: three `uint16_t` fields. -/
structure TouchPoint where
  x : Nat
  y : Nat
  z : Nat
deriving DecidableEq, Repr

/-- The default constructor `TouchPoint(void)`: `x = y = z = 0`. -/
def TouchPoint.zero : TouchPoint := ⟨0, 0, 0⟩

/-- The constructor `TouchPoint(int16_t _x, int16_t _y, int16_t _z)`: each signed argument is
stored in a `uint16_t` field. -/
def TouchPoint.ofInt16 (_x _y _z : Int) : TouchPoint := ⟨toU16 _x, toU16 _y, toU16 _z⟩

/-- The protected geometry fields of `TouchScreenAdapter`. -/
structure Geometry where
  rotation : Nat
  nativeDisplayWidth : Nat
  nativeDisplayHeight : Nat
  displayWidth : Nat
  displayHeight : Nat
deriving DecidableEq, Repr

/-- The field initialisers of `TouchScreenAdapter`: rotation 0, native 240x320 and the
display dimensions copied from the native ones. -/
def Geometry.init : Geometry :=
  { rotation := 0
    nativeDisplayWidth := 240
    nativeDisplayHeight := 320
    displayWidth := 240
    displayHeight := 320 }

/-- The method `setRotation(uint8_t r)`: `rotation = (r & 3)`, then the `switch` that copies
(cases 0 and 2) or swaps (cases 1 and 3) the native dimensions. The switch has no default
branch. -/
def setRotation (g : Geometry) (r : Nat) : Geometry :=
  let rotation := (r % 256) &&& 3
  match rotation with
  | 0 | 2 =>
    { g with rotation := rotation
             displayWidth := g.nativeDisplayWidth
             displayHeight := g.nativeDisplayHeight }
  | 1 | 3 =>
    { g with rotation := rotation
             displayWidth := g.nativeDisplayHeight
             displayHeight := g.nativeDisplayWidth }
  | _ => { g with rotation := rotation }

/-- The method `setDisplayWidth(uint16_t widthPx)`. -/
def setDisplayWidth (g : Geometry) (widthPx : Nat) : Geometry :=
  let g1 := { g with nativeDisplayWidth := widthPx % 65536 }
  let g2 := { g1 with displayWidth := g1.nativeDisplayWidth }
  setRotation g2 g2.rotation

/-- The method `setDisplayHeight(uint16_t heightPx)`. -/
def setDisplayHeight (g : Geometry) (heightPx : Nat) : Geometry :=
  let g1 := { g with nativeDisplayHeight := heightPx % 65536 }
  let g2 := { g1 with displayHeight := g1.nativeDisplayHeight }
  setRotation g2 g2.rotation

/-- One call of a geometry setter. -/
inductive GeomCall where
  | setDisplayWidth (widthPx : Nat)
  | setDisplayHeight (heightPx : Nat)
  | setRotation (r : Nat)
deriving DecidableEq, Repr

/-- The effect of one setter call. -/
def GeomCall.apply (g : Geometry) : GeomCall → Geometry
  | .setDisplayWidth w => TouchScreenAdapter.setDisplayWidth g w
  | .setDisplayHeight h => TouchScreenAdapter.setDisplayHeight g h
  | .setRotation r => TouchScreenAdapter.setRotation g r

/-- The state after a finite sequence of setter calls, applied left to right. -/
def runCalls (g : Geometry) (calls : List GeomCall) : Geometry :=
  calls.foldl GeomCall.apply g

/-- The derived display dimensions agree with the rotation: native when the rotation is
even, swapped when it is odd, and the rotation is one of 0, 1, 2, 3. -/
def Geometry.Consistent (g : Geometry) : Prop :=
  g.rotation < 4 ∧
  (g.rotation % 2 = 0 →
    g.displayWidth = g.nativeDisplayWidth ∧ g.displayHeight = g.nativeDisplayHeight) ∧
  (g.rotation % 2 = 1 →
    g.displayWidth = g.nativeDisplayHeight ∧ g.displayHeight = g.nativeDisplayWidth)

/-! ## Driver samples and the Arduino helpers -/

/-- The point structs of the two drivers (`TSPoint` of the resistive library, `TS_Point` of
the FT6206 library): three `int16_t` fields. The value of `getPoint()` is an input of the
mapping functions. -/
structure TSPoint where
  x : Int
  y : Int
  z : Int
deriving DecidableEq, Repr

/-- Each field of the sample is a value of `int16_t`. -/
def TSPoint.IsInt16 (p : TSPoint) : Prop :=
  (-32768 ≤ p.x ∧ p.x ≤ 32767) ∧ (-32768 ≤ p.y ∧ p.y ≤ 32767) ∧ (-32768 ≤ p.z ∧ p.z ≤ 32767)

/-- Modelled from the spec: the value of the Arduino core function `map` (declared by
`Arduino.h`, which is not among the sources) when the divisor is not zero:
`(x - in_min) * (out_max - out_min) / (in_max - in_min) + out_min` on 32-bit `long`
operands, the division truncating toward zero. -/
def mapVal (x in_min in_max out_min out_max : Int) : Int :=
  wrapLong (Int.tdiv (wrapLong (wrapLong (x - in_min) * wrapLong (out_max - out_min)))
    (wrapLong (in_max - in_min)) + out_min)

/-- Modelled from the spec: the Arduino core function `map(long, long, long, long, long)`,
declared by `Arduino.h`, which is not among the sources. It is the linear interpolation
`outLo + (v - inLo) * (outHi - outLo) / (inHi - inLo)` of the spec, here in C integer
arithmetic; a zero divisor gives no value. -/
def map (x in_min in_max out_min out_max : Int) : Option Int :=
  if wrapLong (in_max - in_min) = 0 then none
  else some (mapVal x in_min in_max out_min out_max)

/-- Modelled from the spec: the Arduino macro `constrain(amt, low, high)`, declared by
`Arduino.h`, which is not among the sources: the clamp
`(amt) < (low) ? (low) : ((amt) > (high) ? (high) : (amt))`. -/
def constrain (amt low high : Int) : Int :=
  if amt < low then low else if amt > high then high else amt

/-! ## Capacitive adapter (`AdafruitFT6206TouchScreen.h`) -/

/-- The method `AdafruitFT6206TouchScreen::getTouchPoint`, on the geometry fields of the
adapter and the sample read from the driver. The local `x`, `y` are `uint16_t`; the
difference `displayWidth - x` is an `int` that is stored in a `uint16_t` field. -/
def AdafruitFT6206TouchScreen.getTouchPoint (g : Geometry) (tsPoint : TSPoint) : TouchPoint :=
  let x : Nat := toU16 (if g.rotation % 2 ≠ 0 then tsPoint.y else tsPoint.x)
  let y : Nat := toU16 (if g.rotation % 2 ≠ 0 then tsPoint.x else tsPoint.y)
  { x := toU16 (if g.rotation = 2 ∨ g.rotation = 3 then (x : Int) else (g.displayWidth : Int) - x)
    y := toU16 (if g.rotation = 1 ∨ g.rotation = 2 then (y : Int) else (g.displayHeight : Int) - y)
    z := toU16 tsPoint.z }

/-- The method `AdafruitFT6206TouchScreen::getTouchPointRaw`. -/
def AdafruitFT6206TouchScreen.getTouchPointRaw (_g : Geometry) (p : TSPoint) : TouchPoint :=
  TouchPoint.ofInt16 p.x p.y p.z

/-! ## Resistive adapter (`AdafruitResistiveTouchScreen.h`) -/

/-- The fields of `AdafruitResistiveTouchScreen`: the inherited geometry and the six
`uint16_t` calibration bounds with their initialisers. -/
structure AdafruitResistiveTouchScreen extends Geometry where
  minRawY : Nat := 100
  maxRawY : Nat := 900
  minRawX : Nat := 100
  maxRawX : Nat := 900
  minRawZ : Nat := 1
  maxRawZ : Nat := 1023
deriving DecidableEq, Repr

namespace AdafruitResistiveTouchScreen

/-- The constructor: the native dimensions are the `uint16_t` arguments (240 and 320 by
default), the display dimensions are copied from them, the rest keeps its initialiser. -/
def new (displayWidth displayHeight : Nat) : AdafruitResistiveTouchScreen :=
  { rotation := 0
    nativeDisplayWidth := displayWidth % 65536
    nativeDisplayHeight := displayHeight % 65536
    displayWidth := displayWidth % 65536
    displayHeight := displayHeight % 65536 }

/-- The setter `setMinRawY(uint16_t limit)`. -/
def setMinRawY (a : AdafruitResistiveTouchScreen) (limit : Nat) : AdafruitResistiveTouchScreen :=
  { a with minRawY := limit % 65536 }

/-- The setter `setMinRawX(uint16_t limit)`. -/
def setMinRawX (a : AdafruitResistiveTouchScreen) (limit : Nat) : AdafruitResistiveTouchScreen :=
  { a with minRawX := limit % 65536 }

/-- The setter `setMaxRawX(uint16_t limit)`. -/
def setMaxRawX (a : AdafruitResistiveTouchScreen) (limit : Nat) : AdafruitResistiveTouchScreen :=
  { a with maxRawX := limit % 65536 }

/-- The setter `setMaxRawY(uint16_t limit)`. -/
def setMaxRawY (a : AdafruitResistiveTouchScreen) (limit : Nat) : AdafruitResistiveTouchScreen :=
  { a with maxRawY := limit % 65536 }

/-- The setter `setMinRawZ(uint16_t limit)`. -/
def setMinRawZ (a : AdafruitResistiveTouchScreen) (limit : Nat) : AdafruitResistiveTouchScreen :=
  { a with minRawZ := limit % 65536 }

/-- The setter `setMaxRawZ(uint16_t limit)`. -/
def setMaxRawZ (a : AdafruitResistiveTouchScreen) (limit : Nat) : AdafruitResistiveTouchScreen :=
  { a with maxRawZ := limit % 65536 }

/-- The condition of the `if` in `getTouchPoint`: each raw coordinate strictly between its
two bounds, every bound cast to `int16_t` before the comparison. -/
def accepts (a : AdafruitResistiveTouchScreen) (tsPoint : TSPoint) : Bool :=
  decide (tsPoint.z > toI16 a.minRawZ) && decide (tsPoint.z < toI16 a.maxRawZ)
  && decide (tsPoint.x > toI16 a.minRawX) && decide (tsPoint.x < toI16 a.maxRawX)
  && decide (tsPoint.y > toI16 a.minRawY) && decide (tsPoint.y < toI16 a.maxRawY)

/-- The method `AdafruitResistiveTouchScreen::getTouchPoint`, on the fields of the adapter
and the sample read from the driver. No value is returned when a `map` call divides by
zero. -/
def getTouchPoint (a : AdafruitResistiveTouchScreen) (tsPoint : TSPoint) : Option TouchPoint :=
  if a.accepts tsPoint then do
    let mz ← map tsPoint.z a.maxRawZ a.minRawZ 1 255
    let x : Nat := toU16 (if a.rotation % 2 ≠ 0 then tsPoint.y else tsPoint.x)
    let y : Nat := toU16 (if a.rotation % 2 ≠ 0 then tsPoint.x else tsPoint.y)
    let mx ←
      if a.rotation = 2 ∨ a.rotation = 3 then map x a.maxRawX a.minRawX 0 a.displayWidth
      else map x a.minRawX a.maxRawX 0 a.displayWidth
    let my ←
      if a.rotation = 1 ∨ a.rotation = 2 then map y a.maxRawY a.minRawY 0 a.displayHeight
      else map y a.minRawY a.maxRawY 0 a.displayHeight
    some { x := toU16 (constrain mx 0 ((a.displayWidth : Int) - 1))
           y := toU16 (constrain my 0 ((a.displayHeight : Int) - 1))
           z := toU16 (constrain mz 1 255) }
  else some TouchPoint.zero

/-- The method `AdafruitResistiveTouchScreen::getTouchPointRaw`. -/
def getTouchPointRaw (_a : AdafruitResistiveTouchScreen) (tsPoint : TSPoint) : TouchPoint :=
  { x := toU16 tsPoint.x, y := toU16 tsPoint.y, z := toU16 tsPoint.z }

/-- Every field holds a value of its C type: `uint8_t` rotation, `uint16_t` dimensions and
bounds. -/
def InRange (a : AdafruitResistiveTouchScreen) : Prop :=
  a.rotation < 256 ∧ a.nativeDisplayWidth < 65536 ∧ a.nativeDisplayHeight < 65536 ∧
  a.displayWidth < 65536 ∧ a.displayHeight < 65536 ∧
  a.minRawX < 65536 ∧ a.maxRawX < 65536 ∧ a.minRawY < 65536 ∧ a.maxRawY < 65536 ∧
  a.minRawZ < 65536 ∧ a.maxRawZ < 65536

end AdafruitResistiveTouchScreen

/-- The inherited method `setRotation` called on the resistive adapter: it writes the
geometry fields of the base class only. -/
def AdafruitResistiveTouchScreen.setRotation (a : AdafruitResistiveTouchScreen) (r : Nat) :
    AdafruitResistiveTouchScreen :=
  { a with toGeometry := TouchScreenAdapter.setRotation a.toGeometry r }

/-- The inherited method `setDisplayWidth` called on the resistive adapter. -/
def AdafruitResistiveTouchScreen.setDisplayWidth (a : AdafruitResistiveTouchScreen)
    (widthPx : Nat) : AdafruitResistiveTouchScreen :=
  { a with toGeometry := TouchScreenAdapter.setDisplayWidth a.toGeometry widthPx }

/-- The inherited method `setDisplayHeight` called on the resistive adapter. -/
def AdafruitResistiveTouchScreen.setDisplayHeight (a : AdafruitResistiveTouchScreen)
    (heightPx : Nat) : AdafruitResistiveTouchScreen :=
  { a with toGeometry := TouchScreenAdapter.setDisplayHeight a.toGeometry heightPx }

/-- The value of an unsigned 16-bit bound after the cast to `int16_t`: the bound itself up to
32767, the bound minus 65536 above. -/
def signedBound (b : Nat) : Int := if b ≤ 32767 then (b : Int) else (b : Int) - 65536

/-! ## Geometry lemmas -/

theorem land_three (n : Nat) : n &&& 3 = n % 4 :=
  Nat.and_pow_two_sub_one_eq_mod n 2

theorem setRotation_consistent (g : Geometry) (r : Nat) : (setRotation g r).Consistent := by
  unfold setRotation
  simp only [land_three]
  have h4 : r % 256 % 4 < 4 := Nat.mod_lt _ (by decide)
  generalize r % 256 % 4 = k at h4
  match k, h4 with
  | 0, _ => simp [Geometry.Consistent]
  | 1, _ => simp [Geometry.Consistent]
  | 2, _ => simp [Geometry.Consistent]
  | 3, _ => simp [Geometry.Consistent]

theorem apply_consistent (g : Geometry) (c : GeomCall) : (c.apply g).Consistent := by
  cases c with
  | setDisplayWidth w => exact setRotation_consistent _ _
  | setDisplayHeight h => exact setRotation_consistent _ _
  | setRotation r => exact setRotation_consistent _ _

theorem runCalls_consistent (calls : List GeomCall) :
    ∀ g : Geometry, g.Consistent → (runCalls g calls).Consistent := by
  induction calls with
  | nil => intro g hg; exact hg
  | cons c cs ih =>
    intro g _
    exact ih (c.apply g) (apply_consistent g c)

theorem init_consistent : Geometry.init.Consistent := by
  simp [Geometry.Consistent, Geometry.init]

/-- The state written by `setRotation`, in closed form. -/
theorem setRotation_eq (g : Geometry) (r : Nat) :
    setRotation g r =
      { rotation := r % 256 % 4
        nativeDisplayWidth := g.nativeDisplayWidth
        nativeDisplayHeight := g.nativeDisplayHeight
        displayWidth :=
          if r % 256 % 4 % 2 = 0 then g.nativeDisplayWidth else g.nativeDisplayHeight
        displayHeight :=
          if r % 256 % 4 % 2 = 0 then g.nativeDisplayHeight else g.nativeDisplayWidth } := by
  unfold setRotation
  simp only [land_three]
  have h4 : r % 256 % 4 < 4 := Nat.mod_lt _ (by decide)
  generalize r % 256 % 4 = k at h4
  match k, h4 with
  | 0, _ => rfl
  | 1, _ => rfl
  | 2, _ => rfl
  | 3, _ => rfl

theorem mod_four_idem (r : Nat) : r % 256 % 4 % 256 % 4 = r % 256 % 4 := by omega

/-! ## Machine integer lemmas -/

theorem toU16_cast (v : Int) (h0 : 0 ≤ v) (h1 : v < 65536) : ((toU16 v : Nat) : Int) = v := by
  unfold toU16; omega

theorem toI16_eq_signedBound (b : Nat) (h : b < 65536) : toI16 (b : Int) = signedBound b := by
  unfold toI16 signedBound; split <;> omega

theorem signedBound_of_le (b : Nat) (h : b ≤ 32767) : signedBound b = (b : Int) := by
  unfold signedBound; simp [h]

theorem wrapLong_of_range (v : Int) (h0 : -2147483648 ≤ v) (h1 : v < 2147483648) :
    wrapLong v = v := by
  unfold wrapLong; omega

theorem constrain_bounds (amt low high : Int) (h : low ≤ high) :
    low ≤ constrain amt low high ∧ constrain amt low high ≤ high := by
  unfold constrain; split
  · exact ⟨le_refl _, h⟩
  · split <;> omega

theorem constrain_of_mem (amt low high : Int) (h0 : low ≤ amt) (h1 : amt ≤ high) :
    constrain amt low high = amt := by
  unfold constrain; split
  · omega
  · split <;> omega

/-! ## Resistive filter lemmas -/

namespace AdafruitResistiveTouchScreen

theorem accepts_iff (a : AdafruitResistiveTouchScreen) (p : TSPoint) :
    a.accepts p = true ↔
      (toI16 a.minRawZ < p.z ∧ p.z < toI16 a.maxRawZ) ∧
      (toI16 a.minRawX < p.x ∧ p.x < toI16 a.maxRawX) ∧
      (toI16 a.minRawY < p.y ∧ p.y < toI16 a.maxRawY) := by
  unfold accepts
  simp only [Bool.and_eq_true, decide_eq_true_eq, gt_iff_lt, and_assoc]

theorem getTouchPoint_of_not_accepts (a : AdafruitResistiveTouchScreen) (p : TSPoint)
    (h : ¬ a.accepts p = true) : a.getTouchPoint p = some TouchPoint.zero := by
  unfold getTouchPoint
  simp [h]

theorem map_eq_some (x in_min in_max out_min out_max : Int)
    (h : wrapLong (in_max - in_min) ≠ 0) :
    map x in_min in_max out_min out_max = some (mapVal x in_min in_max out_min out_max) := by
  unfold map; simp [h]

theorem divisor_ne_zero (mn mx : Nat) (v : Int) (h0 : toI16 mn < v) (h1 : v < toI16 mx) :
    wrapLong ((mx : Int) - mn) ≠ 0 ∧ wrapLong ((mn : Int) - mx) ≠ 0 := by
  unfold toI16 at h0 h1
  unfold wrapLong
  constructor <;> omega

/-- The point built by the accepting branch of `getTouchPoint`: no `map` call of that branch
divides by zero. -/
theorem getTouchPoint_of_accepts (a : AdafruitResistiveTouchScreen) (p : TSPoint)
    (h : a.accepts p = true) :
    a.getTouchPoint p = some
      { x := toU16 (constrain
          (if a.rotation = 2 ∨ a.rotation = 3 then
            mapVal (toU16 (if a.rotation % 2 ≠ 0 then p.y else p.x)) a.maxRawX a.minRawX 0
              a.displayWidth
          else
            mapVal (toU16 (if a.rotation % 2 ≠ 0 then p.y else p.x)) a.minRawX a.maxRawX 0
              a.displayWidth) 0 ((a.displayWidth : Int) - 1))
        y := toU16 (constrain
          (if a.rotation = 1 ∨ a.rotation = 2 then
            mapVal (toU16 (if a.rotation % 2 ≠ 0 then p.x else p.y)) a.maxRawY a.minRawY 0
              a.displayHeight
          else
            mapVal (toU16 (if a.rotation % 2 ≠ 0 then p.x else p.y)) a.minRawY a.maxRawY 0
              a.displayHeight) 0 ((a.displayHeight : Int) - 1))
        z := toU16 (constrain (mapVal p.z a.maxRawZ a.minRawZ 1 255) 1 255) } := by
  obtain ⟨⟨hz0, hz1⟩, ⟨hx0, hx1⟩, ⟨hy0, hy1⟩⟩ := (accepts_iff a p).1 h
  have dz := divisor_ne_zero _ _ _ hz0 hz1
  have dx := divisor_ne_zero _ _ _ hx0 hx1
  have dy := divisor_ne_zero _ _ _ hy0 hy1
  unfold getTouchPoint
  simp only [h, if_true, map_eq_some _ _ _ _ _ dz.2, map_eq_some _ _ _ _ _ dx.1,
    map_eq_some _ _ _ _ _ dx.2, map_eq_some _ _ _ _ _ dy.1, map_eq_some _ _ _ _ _ dy.2]
  by_cases hx : a.rotation = 2 ∨ a.rotation = 3 <;> by_cases hy : a.rotation = 1 ∨ a.rotation = 2 <;>
    simp [hx, hy]

theorem accepts_of_between (a : AdafruitResistiveTouchScreen) (p : TSPoint)
    (hb : a.minRawX ≤ 32767 ∧ a.maxRawX ≤ 32767 ∧ a.minRawY ≤ 32767 ∧ a.maxRawY ≤ 32767 ∧
      a.minRawZ ≤ 32767 ∧ a.maxRawZ ≤ 32767)
    (hz : (a.minRawZ : Int) < p.z ∧ p.z < a.maxRawZ)
    (hx : (a.minRawX : Int) < p.x ∧ p.x < a.maxRawX)
    (hy : (a.minRawY : Int) < p.y ∧ p.y < a.maxRawY) : a.accepts p = true := by
  rw [accepts_iff]
  unfold toI16
  omega

theorem display_pos (g : Geometry) (hc : g.Consistent) (hw : 1 ≤ g.nativeDisplayWidth)
    (hh : 1 ≤ g.nativeDisplayHeight) : 1 ≤ g.displayWidth ∧ 1 ≤ g.displayHeight := by
  obtain ⟨_, he, ho⟩ := hc
  rcases Nat.mod_two_eq_zero_or_one g.rotation with h | h
  · obtain ⟨h1, h2⟩ := he h; omega
  · obtain ⟨h1, h2⟩ := ho h; omega

theorem toU16_constrain_le (v : Int) (n : Nat) (h1 : 1 ≤ n) (h2 : n < 65536) :
    toU16 (constrain v 0 ((n : Int) - 1)) ≤ n - 1 := by
  obtain ⟨c0, c1⟩ := constrain_bounds v 0 ((n : Int) - 1) (by omega)
  have hc := toU16_cast (constrain v 0 ((n : Int) - 1)) c0 (by omega)
  omega

theorem toU16_constrain_pressure (v : Int) :
    1 ≤ toU16 (constrain v 1 255) ∧ toU16 (constrain v 1 255) ≤ 255 := by
  obtain ⟨c0, c1⟩ := constrain_bounds v 1 255 (by omega)
  have hc := toU16_cast (constrain v 1 255) (by omega) (by omega)
  omega

/-- The pressure computed for a raw z strictly between two bounds that fit in `int16_t`:
no wrap-around occurs and the truncating division of two negative operands is the
quotient of their absolute values. -/
theorem mapVal_pressure (mn mx : Nat) (z : Int) (h0 : (mn : Int) < z) (h1 : z < mx)
    (hmx : mx ≤ 32767) :
    mapVal z mx mn 1 255 = ((mx : Int) - z) * 254 / ((mx : Int) - mn) + 1 ∧
    0 ≤ ((mx : Int) - z) * 254 / ((mx : Int) - mn) ∧
    ((mx : Int) - z) * 254 / ((mx : Int) - mn) < 254 := by
  have hD : (0 : Int) < (mx : Int) - mn := by omega
  have hN : (0 : Int) ≤ ((mx : Int) - z) * 254 := by omega
  have hq0 : 0 ≤ ((mx : Int) - z) * 254 / ((mx : Int) - mn) := Int.ediv_nonneg hN hD.le
  have hq1 : ((mx : Int) - z) * 254 / ((mx : Int) - mn) < 254 :=
    Int.ediv_lt_of_lt_mul hD (by omega)
  refine ⟨?_, hq0, hq1⟩
  have e1 : (z - (mx : Int)) * 254 = -(((mx : Int) - z) * 254) := by ring
  have e2 : (mn : Int) - mx = -((mx : Int) - mn) := by ring
  have w1 : wrapLong (z - (mx : Int)) = z - mx := wrapLong_of_range _ (by omega) (by omega)
  have w2 : wrapLong ((255 : Int) - 1) = 254 := by decide
  have w3 : wrapLong ((z - (mx : Int)) * 254) = (z - mx) * 254 :=
    wrapLong_of_range _ (by omega) (by omega)
  have w4 : wrapLong ((mn : Int) - mx) = mn - mx := wrapLong_of_range _ (by omega) (by omega)
  unfold mapVal
  rw [w1, w2, w3, w4, e1, e2, Int.neg_tdiv_neg, Int.tdiv_eq_ediv hN hD.le]
  exact wrapLong_of_range _ (by omega) (by omega)

/-- The z of the point returned for an accepted sample whose raw z lies, as an integer,
strictly between `minRawZ` and `maxRawZ`. -/
theorem getTouchPoint_pressure (a : AdafruitResistiveTouchScreen) (p : TSPoint)
    (ha : a.InRange) (hacc : a.accepts p = true)
    (h0 : (a.minRawZ : Int) < p.z) (h1 : p.z < a.maxRawZ) :
    ∃ tp : TouchPoint, a.getTouchPoint p = some tp ∧
      (tp.z : Int) = ((a.maxRawZ : Int) - p.z) * 254 / ((a.maxRawZ : Int) - a.minRawZ) + 1 := by
  obtain ⟨_, _, _, _, _, _, _, _, _, _, hmx⟩ := ha
  have hz := ((accepts_iff a p).1 hacc).1.2
  have hle : a.maxRawZ ≤ 32767 := by
    unfold toI16 at hz
    omega
  obtain ⟨e, q0, q1⟩ := mapVal_pressure a.minRawZ a.maxRawZ p.z h0 h1 hle
  refine ⟨_, getTouchPoint_of_accepts a p hacc, ?_⟩
  show ((toU16 (constrain (mapVal p.z a.maxRawZ a.minRawZ 1 255) 1 255) : Nat) : Int) = _
  rw [e, constrain_of_mem _ _ _ (by omega) (by omega)]
  exact toU16_cast _ (by omega) (by omega)

/-! ### The X mapping of the accepting branch -/

theorem mul_lt_long (u w : Int) (hu0 : 0 ≤ u) (hu1 : u ≤ 32767) (hw0 : 0 ≤ w) (hw1 : w < 65536) :
    0 ≤ u * w ∧ u * w < 2147483648 := by
  have h1 : u * w ≤ 32767 * 65535 := mul_le_mul hu1 (by omega) hw0 (by omega)
  exact ⟨mul_nonneg hu0 hw0, by omega⟩

/-- The forward map of a raw value strictly inside `(mn, mx)` onto `0..W`: no wrap-around,
and the result lies in `0..W-1`. -/
theorem mapVal_forward (mn mx W : Nat) (x : Int) (h0 : (mn : Int) < x) (h1 : x < mx)
    (hmx : mx ≤ 32767) (hW1 : 1 ≤ W) (hW : W < 65536) :
    mapVal x mn mx 0 W = (x - mn) * W / ((mx : Int) - mn) ∧
    0 ≤ (x - mn) * W / ((mx : Int) - mn) ∧
    (x - mn) * W / ((mx : Int) - mn) < W := by
  have hD : (0 : Int) < (mx : Int) - mn := by omega
  obtain ⟨hN, hN1⟩ := mul_lt_long (x - mn) W (by omega) (by omega) (by omega) (by omega)
  have hq0 : 0 ≤ (x - mn) * W / ((mx : Int) - mn) := Int.ediv_nonneg hN hD.le
  have hlt : (x - mn) * (W : Int) < W * ((mx : Int) - mn) := by
    have : (x - mn) * (W : Int) < ((mx : Int) - mn) * W :=
      mul_lt_mul_of_pos_right (by omega) (by omega)
    linarith
  have hq1 : (x - mn) * W / ((mx : Int) - mn) < W := Int.ediv_lt_of_lt_mul hD hlt
  refine ⟨?_, hq0, hq1⟩
  have w1 : wrapLong (x - (mn : Int)) = x - mn := wrapLong_of_range _ (by omega) (by omega)
  have w2 : wrapLong ((W : Int) - 0) = W := by
    rw [sub_zero]; exact wrapLong_of_range _ (by omega) (by omega)
  have w3 : wrapLong ((x - (mn : Int)) * W) = (x - mn) * W :=
    wrapLong_of_range _ (by omega) hN1
  have w4 : wrapLong ((mx : Int) - mn) = mx - mn := wrapLong_of_range _ (by omega) (by omega)
  unfold mapVal
  rw [w1, w2, w3, w4, Int.tdiv_eq_ediv hN hD.le, add_zero]
  exact wrapLong_of_range _ (by omega) (by omega)

/-- The reversed map (source endpoints swapped) of a raw value strictly inside `(mn, mx)`
onto `0..W`: no wrap-around, and the result lies in `0..W-1`. -/
theorem mapVal_reversed (mn mx W : Nat) (x : Int) (h0 : (mn : Int) < x) (h1 : x < mx)
    (hmx : mx ≤ 32767) (hW1 : 1 ≤ W) (hW : W < 65536) :
    mapVal x mx mn 0 W = ((mx : Int) - x) * W / ((mx : Int) - mn) ∧
    0 ≤ ((mx : Int) - x) * W / ((mx : Int) - mn) ∧
    ((mx : Int) - x) * W / ((mx : Int) - mn) < W := by
  have hD : (0 : Int) < (mx : Int) - mn := by omega
  obtain ⟨hN, hN1⟩ := mul_lt_long ((mx : Int) - x) W (by omega) (by omega) (by omega) (by omega)
  have hq0 : 0 ≤ ((mx : Int) - x) * W / ((mx : Int) - mn) := Int.ediv_nonneg hN hD.le
  have hlt : ((mx : Int) - x) * (W : Int) < W * ((mx : Int) - mn) := by
    have : ((mx : Int) - x) * (W : Int) < ((mx : Int) - mn) * W :=
      mul_lt_mul_of_pos_right (by omega) (by omega)
    linarith
  have hq1 : ((mx : Int) - x) * W / ((mx : Int) - mn) < W := Int.ediv_lt_of_lt_mul hD hlt
  refine ⟨?_, hq0, hq1⟩
  have e1 : (x - (mx : Int)) * W = -(((mx : Int) - x) * W) := by ring
  have e2 : (mn : Int) - mx = -((mx : Int) - mn) := by ring
  have w1 : wrapLong (x - (mx : Int)) = x - mx := wrapLong_of_range _ (by omega) (by omega)
  have w2 : wrapLong ((W : Int) - 0) = W := by
    rw [sub_zero]; exact wrapLong_of_range _ (by omega) (by omega)
  have w3 : wrapLong ((x - (mx : Int)) * W) = (x - mx) * W := by
    rw [e1]; exact wrapLong_of_range _ (by omega) (by omega)
  have w4 : wrapLong ((mn : Int) - mx) = mn - mx := wrapLong_of_range _ (by omega) (by omega)
  unfold mapVal
  rw [w1, w2, w3, w4, e1, e2, Int.neg_tdiv_neg, Int.tdiv_eq_ediv hN hD.le, add_zero]
  exact wrapLong_of_range _ (by omega) (by omega)

/-- The raw x of an accepted sample lies, as an integer, strictly between the X bounds when
these fit in `int16_t`. -/
theorem x_between_of_accepts (a : AdafruitResistiveTouchScreen) (p : TSPoint)
    (hacc : a.accepts p = true) (hmn : a.minRawX ≤ 32767) (hmx : a.maxRawX ≤ 32767) :
    (a.minRawX : Int) < p.x ∧ p.x < a.maxRawX := by
  have h := ((accepts_iff a p).1 hacc).2.1
  unfold toI16 at h
  omega

/-- The x returned at rotation 0 for an accepted sample: the forward map of the raw x,
which the clamp leaves as it is. -/
theorem getTouchPoint_x_rotation_zero (a : AdafruitResistiveTouchScreen) (p : TSPoint)
    (hr : a.rotation = 0) (hacc : a.accepts p = true)
    (hmn : a.minRawX ≤ 32767) (hmx : a.maxRawX ≤ 32767)
    (hW1 : 1 ≤ a.displayWidth) (hW : a.displayWidth < 65536) :
    ∃ tp : TouchPoint, a.getTouchPoint p = some tp ∧
      (tp.x : Int) = mapVal p.x a.minRawX a.maxRawX 0 a.displayWidth ∧
      (tp.x : Int) = (p.x - a.minRawX) * a.displayWidth / ((a.maxRawX : Int) - a.minRawX) := by
  obtain ⟨h0, h1⟩ := x_between_of_accepts a p hacc hmn hmx
  obtain ⟨e, q0, q1⟩ := mapVal_forward a.minRawX a.maxRawX a.displayWidth p.x h0 h1 hmx hW1 hW
  refine ⟨_, getTouchPoint_of_accepts a p hacc, ?_⟩
  have hx : ((toU16 p.x : Nat) : Int) = p.x := toU16_cast _ (by omega) (by omega)
  simp only [hr, Nat.zero_mod, ne_eq, not_true_eq_false, if_false, OfNat.zero_ne_ofNat, or_self,
    hx]
  rw [e, constrain_of_mem _ _ _ q0 (by omega), toU16_cast _ q0 (by omega)]
  exact ⟨rfl, rfl⟩

/-- The x returned at rotation 2 for an accepted sample: the reversed map of the raw x,
which the clamp leaves as it is. -/
theorem getTouchPoint_x_rotation_two (a : AdafruitResistiveTouchScreen) (p : TSPoint)
    (hr : a.rotation = 2) (hacc : a.accepts p = true)
    (hmn : a.minRawX ≤ 32767) (hmx : a.maxRawX ≤ 32767)
    (hW1 : 1 ≤ a.displayWidth) (hW : a.displayWidth < 65536) :
    ∃ tp : TouchPoint, a.getTouchPoint p = some tp ∧
      (tp.x : Int) = mapVal p.x a.maxRawX a.minRawX 0 a.displayWidth ∧
      (tp.x : Int) = ((a.maxRawX : Int) - p.x) * a.displayWidth
        / ((a.maxRawX : Int) - a.minRawX) := by
  obtain ⟨h0, h1⟩ := x_between_of_accepts a p hacc hmn hmx
  obtain ⟨e, q0, q1⟩ := mapVal_reversed a.minRawX a.maxRawX a.displayWidth p.x h0 h1 hmx hW1 hW
  refine ⟨_, getTouchPoint_of_accepts a p hacc, ?_⟩
  have hx : ((toU16 p.x : Nat) : Int) = p.x := toU16_cast _ (by omega) (by omega)
  simp only [hr, Nat.mod_self, ne_eq, not_true_eq_false, if_false, true_or, if_true, hx]
  rw [e, constrain_of_mem _ _ _ q0 (by omega), toU16_cast _ q0 (by omega)]
  exact ⟨rfl, rfl⟩

/-- Two truncated quotients whose numerators add up to `D * W` add up to `W - 1` or `W`. -/
theorem ediv_mirror (A B D W : Int) (hD : 0 < D) (hAB : A + B = D) :
    A * W / D + B * W / D = W - 1 ∨ A * W / D + B * W / D = W := by
  have ea := Int.ediv_add_emod (A * W) D
  have eb := Int.ediv_add_emod (B * W) D
  have ra0 := Int.emod_nonneg (A * W) (ne_of_gt hD)
  have rb0 := Int.emod_nonneg (B * W) (ne_of_gt hD)
  have ra1 := Int.emod_lt_of_pos (A * W) hD
  have rb1 := Int.emod_lt_of_pos (B * W) hD
  have hsum : A * W + B * W = D * W := by rw [← hAB]; ring
  have key : D * (W - (A * W / D + B * W / D)) = A * W % D + B * W % D := by
    have : D * (W - (A * W / D + B * W / D))
        = D * W - (D * (A * W / D) + D * (B * W / D)) := by ring
    rw [this]; omega
  have k0 : 0 ≤ W - (A * W / D + B * W / D) := by
    by_contra hk
    have : D * (W - (A * W / D + B * W / D)) ≤ D * (-1) :=
      mul_le_mul_of_nonneg_left (by omega) hD.le
    omega
  have k1 : W - (A * W / D + B * W / D) < 2 := by
    by_contra hk
    have : D * 2 ≤ D * (W - (A * W / D + B * W / D)) :=
      mul_le_mul_of_nonneg_left (by omega) hD.le
    omega
  omega

/-- The inherited `setRotation` does not change what the filter accepts. -/
theorem accepts_setRotation (a : AdafruitResistiveTouchScreen) (r : Nat) (p : TSPoint) :
    (a.setRotation r).accepts p = a.accepts p := rfl

end AdafruitResistiveTouchScreen

/-! ## Claims -/

/-- C1: in every state reached from the initial state (rotation 0, native 240x320, display
240x320) by a finite sequence of `setDisplayWidth`, `setDisplayHeight` and `setRotation`
calls with arbitrary arguments, the rotation is one of 0, 1, 2, 3 and the display
dimensions are the native ones when the rotation is even and the swapped native ones when
it is odd. -/
theorem C1_reachable_geometry_consistent (calls : List GeomCall) :
    ((runCalls Geometry.init calls).rotation = 0 ∨ (runCalls Geometry.init calls).rotation = 1 ∨
      (runCalls Geometry.init calls).rotation = 2 ∨ (runCalls Geometry.init calls).rotation = 3) ∧
    ((runCalls Geometry.init calls).rotation % 2 = 0 →
      ((runCalls Geometry.init calls).displayWidth, (runCalls Geometry.init calls).displayHeight)
        = ((runCalls Geometry.init calls).nativeDisplayWidth,
           (runCalls Geometry.init calls).nativeDisplayHeight)) ∧
    ((runCalls Geometry.init calls).rotation % 2 = 1 →
      ((runCalls Geometry.init calls).displayWidth, (runCalls Geometry.init calls).displayHeight)
        = ((runCalls Geometry.init calls).nativeDisplayHeight,
           (runCalls Geometry.init calls).nativeDisplayWidth)) := by
  obtain ⟨h4, he, ho⟩ := runCalls_consistent calls Geometry.init init_consistent
  refine ⟨by omega, ?_, ?_⟩
  · intro h; obtain ⟨h1, h2⟩ := he h; exact Prod.ext h1 h2
  · intro h; obtain ⟨h1, h2⟩ := ho h; exact Prod.ext h1 h2

/-- C2: for every 8-bit argument `r` and every prior state, `setRotation r` stores
`r mod 4`, keeps the native dimensions as display dimensions when `r mod 4` is 0 or 2 and
swaps them when `r mod 4` is 1 or 3. -/
theorem C2_setRotation_stores_mod_four (g : Geometry) (r : Nat) (hr : r < 256) :
    (setRotation g r).rotation = r % 4 ∧
    ((r % 4 = 0 ∨ r % 4 = 2) →
      (setRotation g r).displayWidth = g.nativeDisplayWidth ∧
      (setRotation g r).displayHeight = g.nativeDisplayHeight) ∧
    ((r % 4 = 1 ∨ r % 4 = 3) →
      (setRotation g r).displayWidth = g.nativeDisplayHeight ∧
      (setRotation g r).displayHeight = g.nativeDisplayWidth) := by
  unfold setRotation
  simp only [land_three, Nat.mod_eq_of_lt hr]
  have h4 : r % 4 < 4 := Nat.mod_lt _ (by decide)
  generalize r % 4 = k at h4
  match k, h4 with
  | 0, _ => simp
  | 1, _ => simp
  | 2, _ => simp
  | 3, _ => simp

/-- Witness of C2 at the argument 7 on the initial state: the rotation becomes 3 and the
display is 320x240. -/
theorem C2_setRotation_stores_mod_four_witness :
    (7 < 256) ∧
    (setRotation Geometry.init 7).rotation = 7 % 4 ∧
    ((7 % 4 = 0 ∨ 7 % 4 = 2) →
      (setRotation Geometry.init 7).displayWidth = Geometry.init.nativeDisplayWidth ∧
      (setRotation Geometry.init 7).displayHeight = Geometry.init.nativeDisplayHeight) ∧
    ((7 % 4 = 1 ∨ 7 % 4 = 3) →
      (setRotation Geometry.init 7).displayWidth = Geometry.init.nativeDisplayHeight ∧
      (setRotation Geometry.init 7).displayHeight = Geometry.init.nativeDisplayWidth) :=
  ⟨by decide, C2_setRotation_stores_mod_four Geometry.init 7 (by decide)⟩

/-- C3 (as amended): for every calibration of unsigned 16-bit bounds, every rotation and
geometry and every raw sample, if at least one of `s minRawZ < rawZ < s maxRawZ`,
`s minRawX < rawX < s maxRawX`, `s minRawY < rawY < s maxRawY` fails, where `s b` is the
bound as the filter reads it (`b` up to 32767, `b - 65536` above), the resistive
`getTouchPoint` returns `TouchPoint(0,0,0)`. -/
theorem C3_sample_outside_signed_bounds_rejected (a : AdafruitResistiveTouchScreen)
    (p : TSPoint) (ha : a.InRange)
    (h : ¬ ((signedBound a.minRawZ < p.z ∧ p.z < signedBound a.maxRawZ) ∧
            (signedBound a.minRawX < p.x ∧ p.x < signedBound a.maxRawX) ∧
            (signedBound a.minRawY < p.y ∧ p.y < signedBound a.maxRawY))) :
    a.getTouchPoint p = some ⟨0, 0, 0⟩ := by
  obtain ⟨_, _, _, _, _, h1, h2, h3, h4, h5, h6⟩ := ha
  apply AdafruitResistiveTouchScreen.getTouchPoint_of_not_accepts
  intro hacc
  apply h
  have := (AdafruitResistiveTouchScreen.accepts_iff a p).1 hacc
  rw [toI16_eq_signedBound _ h1, toI16_eq_signedBound _ h2, toI16_eq_signedBound _ h3,
    toI16_eq_signedBound _ h4, toI16_eq_signedBound _ h5, toI16_eq_signedBound _ h6] at this
  exact this

/-- Witness of C3: the default calibration (Z 1..1023, X 100..900, Y 100..900) and the raw
sample (50, 500, 500), whose x is below `minRawX`, give (0, 0, 0). -/
theorem C3_sample_outside_signed_bounds_rejected_witness :
    (AdafruitResistiveTouchScreen.new 240 320).getTouchPoint ⟨50, 500, 500⟩ = some ⟨0, 0, 0⟩ :=
  C3_sample_outside_signed_bounds_rejected (AdafruitResistiveTouchScreen.new 240 320) ⟨50, 500, 500⟩
    (by unfold AdafruitResistiveTouchScreen.InRange; decide) (by decide)

/-- Counterexample of C3 as stated: after `setMinRawZ(65535)` on the default adapter the raw
sample (500, 500, 5) fails `minRawZ < rawZ` as integers (65535 < 5 is false), yet
`getTouchPoint` returns (120, 160, 1) and not (0, 0, 0). -/
theorem C3_counterexample :
    (⟨500, 500, 5⟩ : TSPoint).IsInt16 ∧
    ((AdafruitResistiveTouchScreen.new 240 320).setMinRawZ 65535).InRange ∧
    ¬ ((((AdafruitResistiveTouchScreen.new 240 320).setMinRawZ 65535).minRawZ : Int)
        < (⟨500, 500, 5⟩ : TSPoint).z) ∧
    ((AdafruitResistiveTouchScreen.new 240 320).setMinRawZ 65535).getTouchPoint ⟨500, 500, 5⟩
      = some ⟨120, 160, 1⟩ ∧
    ((AdafruitResistiveTouchScreen.new 240 320).setMinRawZ 65535).getTouchPoint ⟨500, 500, 5⟩
      ≠ some ⟨0, 0, 0⟩ := by
  refine ⟨by unfold TSPoint.IsInt16; decide,
    by unfold AdafruitResistiveTouchScreen.InRange; decide, by decide, by decide, by decide⟩

/-- C4: for every calibration, rotation and geometry, a raw sample one of whose coordinates
is exactly equal to the min bound or to the max bound of its axis is rejected: the
resistive `getTouchPoint` returns `TouchPoint(0,0,0)`. -/
theorem C4_sample_on_a_bound_rejected (a : AdafruitResistiveTouchScreen) (p : TSPoint)
    (hp : p.IsInt16)
    (h : p.x = a.minRawX ∨ p.x = a.maxRawX ∨ p.y = a.minRawY ∨ p.y = a.maxRawY ∨
         p.z = a.minRawZ ∨ p.z = a.maxRawZ) :
    a.getTouchPoint p = some ⟨0, 0, 0⟩ := by
  apply AdafruitResistiveTouchScreen.getTouchPoint_of_not_accepts
  intro hacc
  have hacc2 := (AdafruitResistiveTouchScreen.accepts_iff a p).1 hacc
  unfold toI16 at hacc2
  unfold TSPoint.IsInt16 at hp
  omega

/-- Witness of C4: with the default calibration the raw sample (100, 500, 500), whose x
equals `minRawX`, gives (0, 0, 0). -/
theorem C4_sample_on_a_bound_rejected_witness :
    (AdafruitResistiveTouchScreen.new 240 320).getTouchPoint ⟨100, 500, 500⟩ = some ⟨0, 0, 0⟩ :=
  C4_sample_on_a_bound_rejected (AdafruitResistiveTouchScreen.new 240 320) ⟨100, 500, 500⟩
    (by unfold TSPoint.IsInt16; decide) (Or.inl (by decide))

/-- C5: for every rotation in 0..3 with a consistent geometry whose native dimensions are at
least 1, every calibration whose six bounds are at most 32767 and every raw sample strictly
inside the three calibration ranges, the resistive `getTouchPoint` returns a point with
`1 ≤ z ≤ 255`, `x ≤ displayWidth - 1` and `y ≤ displayHeight - 1`. -/
theorem C5_accepted_sample_in_display (a : AdafruitResistiveTouchScreen) (p : TSPoint)
    (ha : a.InRange) (hc : a.toGeometry.Consistent)
    (hw : 1 ≤ a.nativeDisplayWidth) (hh : 1 ≤ a.nativeDisplayHeight)
    (hb : a.minRawX ≤ 32767 ∧ a.maxRawX ≤ 32767 ∧ a.minRawY ≤ 32767 ∧ a.maxRawY ≤ 32767 ∧
      a.minRawZ ≤ 32767 ∧ a.maxRawZ ≤ 32767)
    (hz : (a.minRawZ : Int) < p.z ∧ p.z < a.maxRawZ)
    (hx : (a.minRawX : Int) < p.x ∧ p.x < a.maxRawX)
    (hy : (a.minRawY : Int) < p.y ∧ p.y < a.maxRawY) :
    ∃ tp : TouchPoint, a.getTouchPoint p = some tp ∧
      (1 ≤ tp.z ∧ tp.z ≤ 255) ∧
      (0 ≤ tp.x ∧ tp.x ≤ a.displayWidth - 1) ∧
      (0 ≤ tp.y ∧ tp.y ≤ a.displayHeight - 1) := by
  have hacc := AdafruitResistiveTouchScreen.accepts_of_between a p hb hz hx hy
  obtain ⟨hdw, hdh⟩ := AdafruitResistiveTouchScreen.display_pos a.toGeometry hc hw hh
  obtain ⟨_, _, _, hW, hH, _⟩ := ha
  refine ⟨_, AdafruitResistiveTouchScreen.getTouchPoint_of_accepts a p hacc, ?_, ?_, ?_⟩
  · exact AdafruitResistiveTouchScreen.toU16_constrain_pressure _
  · exact ⟨Nat.zero_le _, AdafruitResistiveTouchScreen.toU16_constrain_le _ _ hdw hW⟩
  · exact ⟨Nat.zero_le _, AdafruitResistiveTouchScreen.toU16_constrain_le _ _ hdh hH⟩

/-- Witness of C5: the default adapter (240x320, rotation 0, default calibration) and the raw
sample (500, 500, 500). -/
theorem C5_accepted_sample_in_display_witness :
    ∃ tp : TouchPoint,
      (AdafruitResistiveTouchScreen.new 240 320).getTouchPoint ⟨500, 500, 500⟩ = some tp ∧
      (1 ≤ tp.z ∧ tp.z ≤ 255) ∧
      (0 ≤ tp.x ∧ tp.x ≤ (AdafruitResistiveTouchScreen.new 240 320).displayWidth - 1) ∧
      (0 ≤ tp.y ∧ tp.y ≤ (AdafruitResistiveTouchScreen.new 240 320).displayHeight - 1) :=
  C5_accepted_sample_in_display (AdafruitResistiveTouchScreen.new 240 320) ⟨500, 500, 500⟩
    (by unfold AdafruitResistiveTouchScreen.InRange; decide)
    (by unfold Geometry.Consistent; decide)
    (by decide) (by decide) (by decide) (by decide) (by decide) (by decide)

/-- C6: for every rotation and geometry and every raw sample with non-negative coordinates,
the capacitive `getTouchPoint` returns, with `(x, y) = (rawY, rawX)` when the rotation is
odd and `(rawX, rawY)` otherwise, `x_out = x` for rotation 2 or 3 and `displayWidth - x`
modulo `2^16` otherwise, `y_out = y` for rotation 1 or 2 and `displayHeight - y` modulo
`2^16` otherwise, and `z_out = rawZ`. -/
theorem C6_capacitive_swap_then_invert (g : Geometry) (p : TSPoint)
    (hr : g.rotation = 0 ∨ g.rotation = 1 ∨ g.rotation = 2 ∨ g.rotation = 3)
    (hx : 0 ≤ p.x ∧ p.x ≤ 32767) (hy : 0 ≤ p.y ∧ p.y ≤ 32767) (hz : 0 ≤ p.z ∧ p.z ≤ 32767) :
    ((AdafruitFT6206TouchScreen.getTouchPoint g p).x : Int) =
      (if g.rotation = 2 ∨ g.rotation = 3 then (if g.rotation % 2 = 1 then p.y else p.x)
       else ((g.displayWidth : Int) - (if g.rotation % 2 = 1 then p.y else p.x)) % 65536) ∧
    ((AdafruitFT6206TouchScreen.getTouchPoint g p).y : Int) =
      (if g.rotation = 1 ∨ g.rotation = 2 then (if g.rotation % 2 = 1 then p.x else p.y)
       else ((g.displayHeight : Int) - (if g.rotation % 2 = 1 then p.x else p.y)) % 65536) ∧
    ((AdafruitFT6206TouchScreen.getTouchPoint g p).z : Int) = p.z := by
  unfold AdafruitFT6206TouchScreen.getTouchPoint
  rcases hr with h | h | h | h <;> simp [h, toU16] <;> omega

/-- Witness of C6: rotation 0, display 240x320 and the raw sample (10, 20, 5) give
(230, 300, 5). -/
theorem C6_capacitive_swap_then_invert_witness :
    AdafruitFT6206TouchScreen.getTouchPoint Geometry.init ⟨10, 20, 5⟩ = ⟨230, 300, 5⟩ ∧
    ((AdafruitFT6206TouchScreen.getTouchPoint Geometry.init ⟨10, 20, 5⟩).x : Int) =
      (if Geometry.init.rotation = 2 ∨ Geometry.init.rotation = 3 then
        (if Geometry.init.rotation % 2 = 1 then (⟨10, 20, 5⟩ : TSPoint).y
         else (⟨10, 20, 5⟩ : TSPoint).x)
       else ((Geometry.init.displayWidth : Int) -
        (if Geometry.init.rotation % 2 = 1 then (⟨10, 20, 5⟩ : TSPoint).y
         else (⟨10, 20, 5⟩ : TSPoint).x)) % 65536) :=
  ⟨by decide,
   (C6_capacitive_swap_then_invert Geometry.init ⟨10, 20, 5⟩ (Or.inl rfl)
      (by decide) (by decide) (by decide)).1⟩

/-- C7 (failing input): at rotation 0 on the 240x320 display the raw sample (0, 0, 5), a
touch on the native panel, is mapped to (240, 320, 5): x exceeds `displayWidth - 1 = 239`
and y exceeds `displayHeight - 1 = 319`. -/
theorem C7_capacitive_corner_leaves_display :
    ((0 : Int) ≤ (⟨0, 0, 5⟩ : TSPoint).x ∧
      (⟨0, 0, 5⟩ : TSPoint).x ≤ (Geometry.init.nativeDisplayWidth : Int) - 1) ∧
    ((0 : Int) ≤ (⟨0, 0, 5⟩ : TSPoint).y ∧
      (⟨0, 0, 5⟩ : TSPoint).y ≤ (Geometry.init.nativeDisplayHeight : Int) - 1) ∧
    AdafruitFT6206TouchScreen.getTouchPoint Geometry.init ⟨0, 0, 5⟩ = ⟨240, 320, 5⟩ ∧
    ¬ ((AdafruitFT6206TouchScreen.getTouchPoint Geometry.init ⟨0, 0, 5⟩).x
        ≤ Geometry.init.displayWidth - 1) ∧
    ¬ ((AdafruitFT6206TouchScreen.getTouchPoint Geometry.init ⟨0, 0, 5⟩).y
        ≤ Geometry.init.displayHeight - 1) := by
  refine ⟨by decide, by decide, by decide, by decide, by decide⟩

/-- C8 (failing input): at rotation 0 on the 240x320 display the untouched sample
(0, 0, 0) is mapped to (240, 320, 0): x and y are populated although z is 0. -/
theorem C8_capacitive_untouched_populated :
    AdafruitFT6206TouchScreen.getTouchPoint Geometry.init ⟨0, 0, 0⟩ = ⟨240, 320, 0⟩ ∧
    (AdafruitFT6206TouchScreen.getTouchPoint Geometry.init ⟨0, 0, 0⟩).x ≠ 0 ∧
    (AdafruitFT6206TouchScreen.getTouchPoint Geometry.init ⟨0, 0, 0⟩).y ≠ 0 := by
  refine ⟨by decide, by decide, by decide⟩

/-- C9: for both adapters, whatever the rotation, the display dimensions and the
calibration, `getTouchPointRaw` returns exactly the raw sample `(rawX, rawY, rawZ)` when its
coordinates are non-negative; no sample is filtered. -/
theorem C9_getTouchPointRaw_returns_sample (g : Geometry) (a : AdafruitResistiveTouchScreen)
    (p : TSPoint)
    (hx : 0 ≤ p.x ∧ p.x ≤ 32767) (hy : 0 ≤ p.y ∧ p.y ≤ 32767) (hz : 0 ≤ p.z ∧ p.z ≤ 32767) :
    (((AdafruitFT6206TouchScreen.getTouchPointRaw g p).x : Int) = p.x ∧
     ((AdafruitFT6206TouchScreen.getTouchPointRaw g p).y : Int) = p.y ∧
     ((AdafruitFT6206TouchScreen.getTouchPointRaw g p).z : Int) = p.z) ∧
    (((a.getTouchPointRaw p).x : Int) = p.x ∧
     ((a.getTouchPointRaw p).y : Int) = p.y ∧
     ((a.getTouchPointRaw p).z : Int) = p.z) := by
  unfold AdafruitFT6206TouchScreen.getTouchPointRaw TouchPoint.ofInt16
    AdafruitResistiveTouchScreen.getTouchPointRaw
  refine ⟨⟨?_, ?_, ?_⟩, ?_, ?_, ?_⟩ <;> apply toU16_cast <;> omega

/-- Witness of C9: the raw sample (50, 500, 0), which the resistive `getTouchPoint` rejects,
is returned unchanged by `getTouchPointRaw` of both adapters. -/
theorem C9_getTouchPointRaw_returns_sample_witness :
    (AdafruitResistiveTouchScreen.new 240 320).getTouchPoint ⟨50, 500, 0⟩ = some ⟨0, 0, 0⟩ ∧
    AdafruitFT6206TouchScreen.getTouchPointRaw Geometry.init ⟨50, 500, 0⟩ = ⟨50, 500, 0⟩ ∧
    (AdafruitResistiveTouchScreen.new 240 320).getTouchPointRaw ⟨50, 500, 0⟩ = ⟨50, 500, 0⟩ ∧
    (((AdafruitResistiveTouchScreen.new 240 320).getTouchPointRaw ⟨50, 500, 0⟩).z : Int)
      = (⟨50, 500, 0⟩ : TSPoint).z :=
  ⟨by decide, by decide, by decide,
   (C9_getTouchPointRaw_returns_sample Geometry.init (AdafruitResistiveTouchScreen.new 240 320)
      ⟨50, 500, 0⟩ (by decide) (by decide) (by decide)).2.2.2⟩

/-- C10 (as amended): for every calibration and every two accepted raw samples whose raw z
values satisfy `minRawZ < z1 < z2 < maxRawZ`, the pressure returned by the resistive
`getTouchPoint` for `z2` is less than or equal to the pressure returned for `z1`, both lie in
`[1, 255]`, and the pressure for `z2` is strictly smaller whenever
`254 * (z2 - z1) ≥ maxRawZ - minRawZ` (in particular for every pair when
`maxRawZ - minRawZ ≤ 254`). -/
theorem C10_pressure_nonincreasing (a : AdafruitResistiveTouchScreen) (p1 p2 : TSPoint)
    (ha : a.InRange) (h1 : a.accepts p1 = true) (h2 : a.accepts p2 = true)
    (hlo : (a.minRawZ : Int) < p1.z) (hlt : p1.z < p2.z) (hhi : p2.z < a.maxRawZ) :
    ∃ t1 t2 : TouchPoint, a.getTouchPoint p1 = some t1 ∧ a.getTouchPoint p2 = some t2 ∧
      t2.z ≤ t1.z ∧ (1 ≤ t1.z ∧ t1.z ≤ 255) ∧ (1 ≤ t2.z ∧ t2.z ≤ 255) ∧
      ((a.maxRawZ : Int) - a.minRawZ ≤ 254 * (p2.z - p1.z) → t2.z < t1.z) ∧
      (a.maxRawZ - a.minRawZ ≤ 254 → t2.z < t1.z) := by
  obtain ⟨t1, e1, z1⟩ :=
    AdafruitResistiveTouchScreen.getTouchPoint_pressure a p1 ha h1 hlo (by omega)
  obtain ⟨t2, e2, z2⟩ :=
    AdafruitResistiveTouchScreen.getTouchPoint_pressure a p2 ha h2 (by omega) hhi
  have hD : (0 : Int) < (a.maxRawZ : Int) - a.minRawZ := by omega
  have hmono : ((a.maxRawZ : Int) - p2.z) * 254 / ((a.maxRawZ : Int) - a.minRawZ)
      ≤ ((a.maxRawZ : Int) - p1.z) * 254 / ((a.maxRawZ : Int) - a.minRawZ) :=
    Int.ediv_le_ediv hD (by omega)
  have q0 : 0 ≤ ((a.maxRawZ : Int) - p2.z) * 254 / ((a.maxRawZ : Int) - a.minRawZ) :=
    Int.ediv_nonneg (by omega) hD.le
  have q1 : ((a.maxRawZ : Int) - p1.z) * 254 / ((a.maxRawZ : Int) - a.minRawZ) < 254 :=
    Int.ediv_lt_of_lt_mul hD (by omega)
  have strict : (a.maxRawZ : Int) - a.minRawZ ≤ 254 * (p2.z - p1.z) → t2.z < t1.z := by
    intro hfar
    have hstep : (((a.maxRawZ : Int) - p2.z) * 254 + 1 * ((a.maxRawZ : Int) - a.minRawZ))
        / ((a.maxRawZ : Int) - a.minRawZ)
        ≤ ((a.maxRawZ : Int) - p1.z) * 254 / ((a.maxRawZ : Int) - a.minRawZ) :=
      Int.ediv_le_ediv hD (by omega)
    rw [Int.add_mul_ediv_right _ _ (ne_of_gt hD)] at hstep
    omega
  refine ⟨t1, t2, e1, e2, by omega, by omega, by omega, strict, ?_⟩
  intro hsmall
  exact strict (by omega)

/-- Witness of C10: the default calibration (Z 1..1023) and the raw samples (500, 500, 100)
and (500, 500, 900), for which `254 * (900 - 100) ≥ 1022`: the pressures are 230 and 31. -/
theorem C10_pressure_nonincreasing_witness :
    (AdafruitResistiveTouchScreen.new 240 320).getTouchPoint ⟨500, 500, 100⟩
      = some ⟨120, 160, 230⟩ ∧
    (AdafruitResistiveTouchScreen.new 240 320).getTouchPoint ⟨500, 500, 900⟩
      = some ⟨120, 160, 31⟩ ∧
    ∃ t1 t2 : TouchPoint,
      (AdafruitResistiveTouchScreen.new 240 320).getTouchPoint ⟨500, 500, 100⟩ = some t1 ∧
      (AdafruitResistiveTouchScreen.new 240 320).getTouchPoint ⟨500, 500, 900⟩ = some t2 ∧
      t2.z ≤ t1.z ∧ (1 ≤ t1.z ∧ t1.z ≤ 255) ∧ (1 ≤ t2.z ∧ t2.z ≤ 255) ∧ t2.z < t1.z := by
  refine ⟨by decide, by decide, ?_⟩
  obtain ⟨t1, t2, e1, e2, hle, r1, r2, hstrict, _⟩ :=
    C10_pressure_nonincreasing (AdafruitResistiveTouchScreen.new 240 320) ⟨500, 500, 100⟩
      ⟨500, 500, 900⟩ (by unfold AdafruitResistiveTouchScreen.InRange; decide) (by decide)
      (by decide) (by decide) (by decide) (by decide)
  exact ⟨t1, t2, e1, e2, hle, r1, r2, hstrict (by decide)⟩

/-- Counterexample of C10 as stated: with the default calibration (Z 1..1023) the accepted
raw samples (500, 500, 2) and (500, 500, 3) satisfy `1 < 2 < 3 < 1023`, and both are
reported with pressure 254: the pressure for the larger raw z is not strictly smaller. -/
theorem C10_counterexample :
    (AdafruitResistiveTouchScreen.new 240 320).accepts ⟨500, 500, 2⟩ = true ∧
    (AdafruitResistiveTouchScreen.new 240 320).accepts ⟨500, 500, 3⟩ = true ∧
    (AdafruitResistiveTouchScreen.new 240 320).minRawZ < 2 ∧ (2 : Int) < 3 ∧
    3 < (AdafruitResistiveTouchScreen.new 240 320).maxRawZ ∧
    (AdafruitResistiveTouchScreen.new 240 320).getTouchPoint ⟨500, 500, 2⟩ = some ⟨120, 160, 254⟩ ∧
    (AdafruitResistiveTouchScreen.new 240 320).getTouchPoint ⟨500, 500, 3⟩ = some ⟨120, 160, 254⟩ ∧
    ¬ ((254 : Nat) < 254) := by
  refine ⟨by decide, by decide, by decide, by decide, by decide, by decide, by decide,
    by decide⟩

/-- C11 (as amended): with `minRawX = 100`, `maxRawX = 900`, `displayWidth = 240` and
rotation 0, for every accepted raw sample whose raw x is 500 the resistive `getTouchPoint`
returns `x = 120`. -/
theorem C11_raw_500_maps_to_120 (a : AdafruitResistiveTouchScreen) (p : TSPoint)
    (hr : a.rotation = 0) (hmin : a.minRawX = 100) (hmax : a.maxRawX = 900)
    (hW : a.displayWidth = 240) (hx : p.x = 500) (hacc : a.accepts p = true) :
    ∃ tp : TouchPoint, a.getTouchPoint p = some tp ∧ tp.x = 120 := by
  obtain ⟨tp, e, _, hq⟩ :=
    AdafruitResistiveTouchScreen.getTouchPoint_x_rotation_zero a p hr hacc
      (by omega) (by omega) (by omega) (by omega)
  refine ⟨tp, e, ?_⟩
  rw [hmin, hmax, hW, hx] at hq
  have : ((500 : Int) - ((100 : Nat) : Int)) * ((240 : Nat) : Int)
      / ((((900 : Nat) : Int)) - ((100 : Nat) : Int)) = 120 := by decide
  omega

/-- Witness of C11: the default adapter and the raw sample (500, 500, 500). -/
theorem C11_raw_500_maps_to_120_witness :
    ∃ tp : TouchPoint,
      (AdafruitResistiveTouchScreen.new 240 320).getTouchPoint ⟨500, 500, 500⟩ = some tp ∧
      tp.x = 120 :=
  C11_raw_500_maps_to_120 (AdafruitResistiveTouchScreen.new 240 320) ⟨500, 500, 500⟩
    (by decide) (by decide) (by decide) (by decide) (by decide) (by decide)

/-- Counterexample of C11 as stated: the default adapter (X 100..900, display 240x320,
rotation 0) accepts the raw sample (500, 500, 500) and returns (120, 160, 130), whose x is
not 118. -/
theorem C11_counterexample :
    (AdafruitResistiveTouchScreen.new 240 320).accepts ⟨500, 500, 500⟩ = true ∧
    (AdafruitResistiveTouchScreen.new 240 320).getTouchPoint ⟨500, 500, 500⟩
      = some ⟨120, 160, 130⟩ ∧
    ¬ ∃ tp : TouchPoint,
      (AdafruitResistiveTouchScreen.new 240 320).getTouchPoint ⟨500, 500, 500⟩ = some tp ∧
      tp.x = 118 := by
  refine ⟨by decide, by decide, ?_⟩
  rintro ⟨tp, e, hx⟩
  have h : (AdafruitResistiveTouchScreen.new 240 320).getTouchPoint ⟨500, 500, 500⟩
      = some ⟨120, 160, 130⟩ := by decide
  rw [h] at e
  cases e
  exact absurd hx (by decide)

/-- C12 (as amended): with native display 240x320 and rotation 1 (display 320x240) the
capacitive `getTouchPoint` maps the raw sample (10, 20, 5) to (300, 10, 5). -/
theorem C12_capacitive_rotation_one_sample :
    (setRotation Geometry.init 1).displayWidth = 320 ∧
    (setRotation Geometry.init 1).displayHeight = 240 ∧
    AdafruitFT6206TouchScreen.getTouchPoint (setRotation Geometry.init 1) ⟨10, 20, 5⟩
      = ⟨300, 10, 5⟩ := by
  refine ⟨by decide, by decide, by decide⟩

/-- Counterexample of C12 as stated: at rotation 1 on the native 240x320 display the raw
sample (10, 20, 5) is not mapped to (20, 230, 5). -/
theorem C12_counterexample :
    AdafruitFT6206TouchScreen.getTouchPoint (setRotation Geometry.init 1) ⟨10, 20, 5⟩
      ≠ ⟨20, 230, 5⟩ := by
  decide

/-- C13: each geometry setter is idempotent: from every state and for every argument,
calling `setDisplayWidth`, `setDisplayHeight` or `setRotation` twice with the same argument
gives the same state as calling it once; in particular the second call leaves
`displayWidth` and `displayHeight` unchanged. -/
theorem C13_geometry_setters_idempotent (g : Geometry) (v : Nat) :
    setDisplayWidth (setDisplayWidth g v) v = setDisplayWidth g v ∧
    setDisplayHeight (setDisplayHeight g v) v = setDisplayHeight g v ∧
    setRotation (setRotation g v) v = setRotation g v := by
  unfold setDisplayWidth setDisplayHeight
  simp only [setRotation_eq, mod_four_idem, Nat.mod_mod]
  exact ⟨trivial, trivial, trivial⟩

/-- C14: the resistive `getTouchPoint` returns a point for every adapter state and every raw
sample, and whenever the filter accepts the sample no `map` call divides by zero:
`maxRawZ ≠ minRawZ`, `maxRawX ≠ minRawX` and `maxRawY ≠ minRawY`, also as 32-bit
differences. -/
theorem C14_getTouchPoint_total (a : AdafruitResistiveTouchScreen) (p : TSPoint) :
    (∃ tp : TouchPoint, a.getTouchPoint p = some tp) ∧
    (a.accepts p = true →
      (a.maxRawZ ≠ a.minRawZ ∧ a.maxRawX ≠ a.minRawX ∧ a.maxRawY ≠ a.minRawY) ∧
      (wrapLong ((a.minRawZ : Int) - a.maxRawZ) ≠ 0 ∧
       wrapLong ((a.maxRawX : Int) - a.minRawX) ≠ 0 ∧
       wrapLong ((a.minRawX : Int) - a.maxRawX) ≠ 0 ∧
       wrapLong ((a.maxRawY : Int) - a.minRawY) ≠ 0 ∧
       wrapLong ((a.minRawY : Int) - a.maxRawY) ≠ 0)) := by
  constructor
  · by_cases h : a.accepts p = true
    · exact ⟨_, AdafruitResistiveTouchScreen.getTouchPoint_of_accepts a p h⟩
    · exact ⟨_, AdafruitResistiveTouchScreen.getTouchPoint_of_not_accepts a p h⟩
  · intro h
    obtain ⟨⟨hz0, hz1⟩, ⟨hx0, hx1⟩, ⟨hy0, hy1⟩⟩ :=
      (AdafruitResistiveTouchScreen.accepts_iff a p).1 h
    have dz := AdafruitResistiveTouchScreen.divisor_ne_zero _ _ _ hz0 hz1
    have dx := AdafruitResistiveTouchScreen.divisor_ne_zero _ _ _ hx0 hx1
    have dy := AdafruitResistiveTouchScreen.divisor_ne_zero _ _ _ hy0 hy1
    refine ⟨⟨?_, ?_, ?_⟩, dz.2, dx.1, dx.2, dy.1, dy.2⟩
    · intro e; rw [e] at hz1; omega
    · intro e; rw [e] at hx1; omega
    · intro e; rw [e] at hy1; omega

/-- Witness of C14: after `setMinRawX(900)` and `setMaxRawX(100)` (min above max) the raw
sample (500, 500, 500) is rejected and (0, 0, 0) is returned; the default adapter accepts
it and its three divisors are not zero. -/
theorem C14_getTouchPoint_total_witness :
    (((AdafruitResistiveTouchScreen.new 240 320).setMinRawX 900).setMaxRawX 100).getTouchPoint
      ⟨500, 500, 500⟩ = some ⟨0, 0, 0⟩ ∧
    (AdafruitResistiveTouchScreen.new 240 320).accepts ⟨500, 500, 500⟩ = true ∧
    ((AdafruitResistiveTouchScreen.new 240 320).maxRawZ
        ≠ (AdafruitResistiveTouchScreen.new 240 320).minRawZ ∧
     (AdafruitResistiveTouchScreen.new 240 320).maxRawX
        ≠ (AdafruitResistiveTouchScreen.new 240 320).minRawX ∧
     (AdafruitResistiveTouchScreen.new 240 320).maxRawY
        ≠ (AdafruitResistiveTouchScreen.new 240 320).minRawY) :=
  ⟨by decide, by decide,
   ((C14_getTouchPoint_total (AdafruitResistiveTouchScreen.new 240 320) ⟨500, 500, 500⟩).2
      (by decide)).1⟩

/-- C15 (failing input): native display 240x320, calibration X 100..900 and Y 200..800, raw
sample (500, 300, 500). The sample is accepted; at rotation 0 the returned y is 53, at
rotation 1 the returned x is 80, because the raw y is then mapped with the X bounds. The capacitive adapter returns the
same value in both places. -/
theorem C15_rotation_one_uses_x_bounds_for_raw_y :
    (((AdafruitResistiveTouchScreen.new 240 320).setMinRawY 200).setMaxRawY 800).accepts
      ⟨500, 300, 500⟩ = true ∧
    ((((AdafruitResistiveTouchScreen.new 240 320).setMinRawY 200).setMaxRawY 800).setRotation
      0).getTouchPoint ⟨500, 300, 500⟩ = some ⟨120, 53, 130⟩ ∧
    ((((AdafruitResistiveTouchScreen.new 240 320).setMinRawY 200).setMaxRawY 800).setRotation
      1).getTouchPoint ⟨500, 300, 500⟩ = some ⟨80, 120, 130⟩ ∧
    (80 : Nat) ≠ 53 ∧
    (AdafruitFT6206TouchScreen.getTouchPoint (setRotation Geometry.init 1) ⟨500, 300, 500⟩).x
      = (AdafruitFT6206TouchScreen.getTouchPoint (setRotation Geometry.init 0)
          ⟨500, 300, 500⟩).y := by
  refine ⟨by decide, by decide, by decide, by decide, by decide⟩

/-- C16: for every native display width `W ≥ 1`, every calibration with bounds at most 32767
and every accepted raw sample, the x returned at rotation 0 and the x returned at rotation 2
add up to `W - 1` or to `W`, and each is the value of its `map` call, not altered by the
clamp to `[0, W-1]`. -/
theorem C16_x_mirrored_within_one_pixel (a : AdafruitResistiveTouchScreen) (p : TSPoint)
    (ha : a.InRange) (hW : 1 ≤ a.nativeDisplayWidth)
    (hb : a.minRawX ≤ 32767 ∧ a.maxRawX ≤ 32767 ∧ a.minRawY ≤ 32767 ∧ a.maxRawY ≤ 32767 ∧
      a.minRawZ ≤ 32767 ∧ a.maxRawZ ≤ 32767)
    (hacc : a.accepts p = true) :
    ∃ t0 t2 : TouchPoint,
      (a.setRotation 0).getTouchPoint p = some t0 ∧
      (a.setRotation 2).getTouchPoint p = some t2 ∧
      (a.setRotation 0).displayWidth = a.nativeDisplayWidth ∧
      (a.setRotation 2).displayWidth = a.nativeDisplayWidth ∧
      (t0.x + t2.x = a.nativeDisplayWidth - 1 ∨ t0.x + t2.x = a.nativeDisplayWidth) ∧
      (t0.x : Int) = mapVal p.x a.minRawX a.maxRawX 0 a.nativeDisplayWidth ∧
      (t2.x : Int) = mapVal p.x a.maxRawX a.minRawX 0 a.nativeDisplayWidth := by
  obtain ⟨_, hnw, _⟩ := ha
  obtain ⟨hmn, hmx, _⟩ := hb
  obtain ⟨t0, e0, m0, q0⟩ :=
    AdafruitResistiveTouchScreen.getTouchPoint_x_rotation_zero (a.setRotation 0) p rfl hacc
      hmn hmx hW hnw
  obtain ⟨t2, e2, m2, q2⟩ :=
    AdafruitResistiveTouchScreen.getTouchPoint_x_rotation_two (a.setRotation 2) p rfl hacc
      hmn hmx hW hnw
  obtain ⟨h0, h1⟩ := AdafruitResistiveTouchScreen.x_between_of_accepts a p hacc hmn hmx
  refine ⟨t0, t2, e0, e2, rfl, rfl, ?_, m0, m2⟩
  have hs := AdafruitResistiveTouchScreen.ediv_mirror (p.x - a.minRawX) ((a.maxRawX : Int) - p.x)
    ((a.maxRawX : Int) - a.minRawX) a.nativeDisplayWidth (by omega) (by ring)
  change (t0.x : Int) = (p.x - a.minRawX) * a.nativeDisplayWidth
    / ((a.maxRawX : Int) - a.minRawX) at q0
  change (t2.x : Int) = ((a.maxRawX : Int) - p.x) * a.nativeDisplayWidth
    / ((a.maxRawX : Int) - a.minRawX) at q2
  omega

/-- Witness of C16: the default adapter and the raw sample (501, 300, 500): 120 at
rotation 0 and 119 at rotation 2, which add up to 239. -/
theorem C16_x_mirrored_within_one_pixel_witness :
    ((AdafruitResistiveTouchScreen.new 240 320).setRotation 0).getTouchPoint ⟨501, 300, 500⟩
      = some ⟨120, 80, 130⟩ ∧
    ((AdafruitResistiveTouchScreen.new 240 320).setRotation 2).getTouchPoint ⟨501, 300, 500⟩
      = some ⟨119, 240, 130⟩ ∧
    ∃ t0 t2 : TouchPoint,
      ((AdafruitResistiveTouchScreen.new 240 320).setRotation 0).getTouchPoint ⟨501, 300, 500⟩
        = some t0 ∧
      ((AdafruitResistiveTouchScreen.new 240 320).setRotation 2).getTouchPoint ⟨501, 300, 500⟩
        = some t2 ∧
      (t0.x + t2.x = (AdafruitResistiveTouchScreen.new 240 320).nativeDisplayWidth - 1 ∨
       t0.x + t2.x = (AdafruitResistiveTouchScreen.new 240 320).nativeDisplayWidth) := by
  refine ⟨by decide, by decide, ?_⟩
  obtain ⟨t0, t2, e0, e2, _, _, hs, _, _⟩ :=
    C16_x_mirrored_within_one_pixel (AdafruitResistiveTouchScreen.new 240 320) ⟨501, 300, 500⟩
      (by unfold AdafruitResistiveTouchScreen.InRange; decide) (by decide) (by decide)
      (by decide)
  exact ⟨t0, t2, e0, e2, hs⟩

/-- C17: for every native display width at least 1, every calibration with bounds at most
32767 and any two accepted raw samples with `rawX1 ≤ rawX2`, the x returned at rotation 0
satisfies `x_out1 ≤ x_out2` and the x returned at rotation 2 satisfies `x_out1 ≥ x_out2`. -/
theorem C17_x_mapping_monotone (a : AdafruitResistiveTouchScreen) (p1 p2 : TSPoint)
    (ha : a.InRange) (hW : 1 ≤ a.nativeDisplayWidth)
    (hb : a.minRawX ≤ 32767 ∧ a.maxRawX ≤ 32767 ∧ a.minRawY ≤ 32767 ∧ a.maxRawY ≤ 32767 ∧
      a.minRawZ ≤ 32767 ∧ a.maxRawZ ≤ 32767)
    (h1 : a.accepts p1 = true) (h2 : a.accepts p2 = true) (hle : p1.x ≤ p2.x) :
    ∃ s1 s2 t1 t2 : TouchPoint,
      (a.setRotation 0).getTouchPoint p1 = some s1 ∧
      (a.setRotation 0).getTouchPoint p2 = some s2 ∧
      (a.setRotation 2).getTouchPoint p1 = some t1 ∧
      (a.setRotation 2).getTouchPoint p2 = some t2 ∧
      s1.x ≤ s2.x ∧ t1.x ≥ t2.x := by
  obtain ⟨_, hnw, _⟩ := ha
  obtain ⟨hmn, hmx, _⟩ := hb
  obtain ⟨s1, es1, _, qs1⟩ :=
    AdafruitResistiveTouchScreen.getTouchPoint_x_rotation_zero (a.setRotation 0) p1 rfl h1
      hmn hmx hW hnw
  obtain ⟨s2, es2, _, qs2⟩ :=
    AdafruitResistiveTouchScreen.getTouchPoint_x_rotation_zero (a.setRotation 0) p2 rfl h2
      hmn hmx hW hnw
  obtain ⟨t1, et1, _, qt1⟩ :=
    AdafruitResistiveTouchScreen.getTouchPoint_x_rotation_two (a.setRotation 2) p1 rfl h1
      hmn hmx hW hnw
  obtain ⟨t2, et2, _, qt2⟩ :=
    AdafruitResistiveTouchScreen.getTouchPoint_x_rotation_two (a.setRotation 2) p2 rfl h2
      hmn hmx hW hnw
  obtain ⟨h0, _⟩ := AdafruitResistiveTouchScreen.x_between_of_accepts a p1 h1 hmn hmx
  obtain ⟨_, h3⟩ := AdafruitResistiveTouchScreen.x_between_of_accepts a p2 h2 hmn hmx
  have hD : (0 : Int) < (a.maxRawX : Int) - a.minRawX := by omega
  have hw0 : (0 : Int) ≤ (a.nativeDisplayWidth : Int) := by omega
  have fwd : (p1.x - a.minRawX) * (a.nativeDisplayWidth : Int) / ((a.maxRawX : Int) - a.minRawX)
      ≤ (p2.x - a.minRawX) * (a.nativeDisplayWidth : Int) / ((a.maxRawX : Int) - a.minRawX) :=
    Int.ediv_le_ediv hD (mul_le_mul_of_nonneg_right (by omega) hw0)
  have rev : ((a.maxRawX : Int) - p2.x) * (a.nativeDisplayWidth : Int)
        / ((a.maxRawX : Int) - a.minRawX)
      ≤ ((a.maxRawX : Int) - p1.x) * (a.nativeDisplayWidth : Int)
        / ((a.maxRawX : Int) - a.minRawX) :=
    Int.ediv_le_ediv hD (mul_le_mul_of_nonneg_right (by omega) hw0)
  change (s1.x : Int) = (p1.x - a.minRawX) * a.nativeDisplayWidth
    / ((a.maxRawX : Int) - a.minRawX) at qs1
  change (s2.x : Int) = (p2.x - a.minRawX) * a.nativeDisplayWidth
    / ((a.maxRawX : Int) - a.minRawX) at qs2
  change (t1.x : Int) = ((a.maxRawX : Int) - p1.x) * a.nativeDisplayWidth
    / ((a.maxRawX : Int) - a.minRawX) at qt1
  change (t2.x : Int) = ((a.maxRawX : Int) - p2.x) * a.nativeDisplayWidth
    / ((a.maxRawX : Int) - a.minRawX) at qt2
  refine ⟨s1, s2, t1, t2, es1, es2, et1, et2, ?_, ?_⟩
  · omega
  · show t2.x ≤ t1.x
    omega

/-- Witness of C17: the default adapter and the raw samples (300, 500, 500) and
(700, 500, 500). -/
theorem C17_x_mapping_monotone_witness :
    ∃ s1 s2 t1 t2 : TouchPoint,
      ((AdafruitResistiveTouchScreen.new 240 320).setRotation 0).getTouchPoint ⟨300, 500, 500⟩
        = some s1 ∧
      ((AdafruitResistiveTouchScreen.new 240 320).setRotation 0).getTouchPoint ⟨700, 500, 500⟩
        = some s2 ∧
      ((AdafruitResistiveTouchScreen.new 240 320).setRotation 2).getTouchPoint ⟨300, 500, 500⟩
        = some t1 ∧
      ((AdafruitResistiveTouchScreen.new 240 320).setRotation 2).getTouchPoint ⟨700, 500, 500⟩
        = some t2 ∧
      s1.x ≤ s2.x ∧ t1.x ≥ t2.x :=
  C17_x_mapping_monotone (AdafruitResistiveTouchScreen.new 240 320) ⟨300, 500, 500⟩
    ⟨700, 500, 500⟩ (by unfold AdafruitResistiveTouchScreen.InRange; decide) (by decide)
    (by decide) (by decide) (by decide) (by decide)

/-- C18: for every native geometry, every rotation `r` in 0..3 and every raw sample with
`0 ≤ rawX ≤ nativeDisplayWidth` and `0 ≤ rawY ≤ nativeDisplayHeight`, the point
`(x', y', z')` returned by the capacitive `getTouchPoint` at rotation `(r + 2) mod 4` and the
point `(x, y, z)` returned at rotation `r` satisfy `x' = displayWidth - x`,
`y' = displayHeight - y` and `z' = z`, the display dimensions being the same for both
rotations. -/
theorem C18_capacitive_half_turn (g : Geometry) (r : Nat) (p : TSPoint) (hr : r < 4)
    (hw : g.nativeDisplayWidth < 65536) (hh : g.nativeDisplayHeight < 65536)
    (hx : 0 ≤ p.x ∧ p.x ≤ g.nativeDisplayWidth)
    (hy : 0 ≤ p.y ∧ p.y ≤ g.nativeDisplayHeight) :
    (setRotation g ((r + 2) % 4)).displayWidth = (setRotation g r).displayWidth ∧
    (setRotation g ((r + 2) % 4)).displayHeight = (setRotation g r).displayHeight ∧
    ((AdafruitFT6206TouchScreen.getTouchPoint (setRotation g ((r + 2) % 4)) p).x : Int)
      = ((setRotation g r).displayWidth : Int)
        - (AdafruitFT6206TouchScreen.getTouchPoint (setRotation g r) p).x ∧
    ((AdafruitFT6206TouchScreen.getTouchPoint (setRotation g ((r + 2) % 4)) p).y : Int)
      = ((setRotation g r).displayHeight : Int)
        - (AdafruitFT6206TouchScreen.getTouchPoint (setRotation g r) p).y ∧
    (AdafruitFT6206TouchScreen.getTouchPoint (setRotation g ((r + 2) % 4)) p).z
      = (AdafruitFT6206TouchScreen.getTouchPoint (setRotation g r) p).z := by
  have hpx : ((toU16 p.x : Nat) : Int) = p.x := toU16_cast _ (by omega) (by omega)
  have hpy : ((toU16 p.y : Nat) : Int) = p.y := toU16_cast _ (by omega) (by omega)
  have hdx : ((toU16 ((g.nativeDisplayWidth : Int) - p.x) : Nat) : Int)
      = (g.nativeDisplayWidth : Int) - p.x := toU16_cast _ (by omega) (by omega)
  have hdy : ((toU16 ((g.nativeDisplayHeight : Int) - p.y) : Nat) : Int)
      = (g.nativeDisplayHeight : Int) - p.y := toU16_cast _ (by omega) (by omega)
  simp only [setRotation_eq, AdafruitFT6206TouchScreen.getTouchPoint]
  interval_cases r <;> simp [hpx, hpy, hdx, hdy]

/-- Witness of C18: native 240x320, rotation 1 against rotation 3, raw sample (10, 20, 5):
(300, 10, 5) at rotation 1 and (20, 230, 5) at rotation 3. -/
theorem C18_capacitive_half_turn_witness :
    AdafruitFT6206TouchScreen.getTouchPoint (setRotation Geometry.init 1) ⟨10, 20, 5⟩
      = ⟨300, 10, 5⟩ ∧
    AdafruitFT6206TouchScreen.getTouchPoint (setRotation Geometry.init ((1 + 2) % 4)) ⟨10, 20, 5⟩
      = ⟨20, 230, 5⟩ ∧
    ((AdafruitFT6206TouchScreen.getTouchPoint (setRotation Geometry.init ((1 + 2) % 4))
        ⟨10, 20, 5⟩).x : Int)
      = ((setRotation Geometry.init 1).displayWidth : Int)
        - (AdafruitFT6206TouchScreen.getTouchPoint (setRotation Geometry.init 1) ⟨10, 20, 5⟩).x :=
  ⟨by decide, by decide,
   (C18_capacitive_half_turn Geometry.init 1 ⟨10, 20, 5⟩ (by decide) (by decide) (by decide)
      (by decide) (by decide)).2.2.1⟩

/-- C19: in every state whose rotation is one of 0..3 (every reachable state),
`setDisplayWidth` leaves the rotation and `nativeDisplayHeight` unchanged,
`setDisplayHeight` leaves the rotation and `nativeDisplayWidth` unchanged and `setRotation`
leaves both native dimensions unchanged; on the resistive adapter each calibration setter
writes its own bound and leaves the geometry and the five other bounds unchanged, and no
geometry setter changes a calibration bound. -/
theorem C19_setters_frame (a : AdafruitResistiveTouchScreen) (v : Nat) (hr : a.rotation < 4) :
    ((setDisplayWidth a.toGeometry v).rotation = a.rotation ∧
      (setDisplayWidth a.toGeometry v).nativeDisplayHeight = a.nativeDisplayHeight) ∧
    ((setDisplayHeight a.toGeometry v).rotation = a.rotation ∧
      (setDisplayHeight a.toGeometry v).nativeDisplayWidth = a.nativeDisplayWidth) ∧
    ((setRotation a.toGeometry v).nativeDisplayWidth = a.nativeDisplayWidth ∧
      (setRotation a.toGeometry v).nativeDisplayHeight = a.nativeDisplayHeight) ∧
    ((a.setMinRawX v).minRawX = v % 65536 ∧ (a.setMinRawX v).toGeometry = a.toGeometry ∧
      ((a.setMinRawX v).maxRawX, (a.setMinRawX v).minRawY, (a.setMinRawX v).maxRawY, (a.setMinRawX v).minRawZ, (a.setMinRawX v).maxRawZ)
        = (a.maxRawX, a.minRawY, a.maxRawY, a.minRawZ, a.maxRawZ)) ∧
    ((a.setMaxRawX v).maxRawX = v % 65536 ∧ (a.setMaxRawX v).toGeometry = a.toGeometry ∧
      ((a.setMaxRawX v).minRawX, (a.setMaxRawX v).minRawY, (a.setMaxRawX v).maxRawY, (a.setMaxRawX v).minRawZ, (a.setMaxRawX v).maxRawZ)
        = (a.minRawX, a.minRawY, a.maxRawY, a.minRawZ, a.maxRawZ)) ∧
    ((a.setMinRawY v).minRawY = v % 65536 ∧ (a.setMinRawY v).toGeometry = a.toGeometry ∧
      ((a.setMinRawY v).minRawX, (a.setMinRawY v).maxRawX, (a.setMinRawY v).maxRawY, (a.setMinRawY v).minRawZ, (a.setMinRawY v).maxRawZ)
        = (a.minRawX, a.maxRawX, a.maxRawY, a.minRawZ, a.maxRawZ)) ∧
    ((a.setMaxRawY v).maxRawY = v % 65536 ∧ (a.setMaxRawY v).toGeometry = a.toGeometry ∧
      ((a.setMaxRawY v).minRawX, (a.setMaxRawY v).maxRawX, (a.setMaxRawY v).minRawY, (a.setMaxRawY v).minRawZ, (a.setMaxRawY v).maxRawZ)
        = (a.minRawX, a.maxRawX, a.minRawY, a.minRawZ, a.maxRawZ)) ∧
    ((a.setMinRawZ v).minRawZ = v % 65536 ∧ (a.setMinRawZ v).toGeometry = a.toGeometry ∧
      ((a.setMinRawZ v).minRawX, (a.setMinRawZ v).maxRawX, (a.setMinRawZ v).minRawY, (a.setMinRawZ v).maxRawY, (a.setMinRawZ v).maxRawZ)
        = (a.minRawX, a.maxRawX, a.minRawY, a.maxRawY, a.maxRawZ)) ∧
    ((a.setMaxRawZ v).maxRawZ = v % 65536 ∧ (a.setMaxRawZ v).toGeometry = a.toGeometry ∧
      ((a.setMaxRawZ v).minRawX, (a.setMaxRawZ v).maxRawX, (a.setMaxRawZ v).minRawY, (a.setMaxRawZ v).maxRawY, (a.setMaxRawZ v).minRawZ)
        = (a.minRawX, a.maxRawX, a.minRawY, a.maxRawY, a.minRawZ)) ∧
    (((a.setDisplayWidth v).minRawX,
       (a.setDisplayWidth v).maxRawX,
       (a.setDisplayWidth v).minRawY,
       (a.setDisplayWidth v).maxRawY,
       (a.setDisplayWidth v).minRawZ,
       (a.setDisplayWidth v).maxRawZ)
        = (a.minRawX, a.maxRawX, a.minRawY, a.maxRawY, a.minRawZ, a.maxRawZ)) ∧
    (((a.setDisplayHeight v).minRawX,
       (a.setDisplayHeight v).maxRawX,
       (a.setDisplayHeight v).minRawY,
       (a.setDisplayHeight v).maxRawY,
       (a.setDisplayHeight v).minRawZ,
       (a.setDisplayHeight v).maxRawZ)
        = (a.minRawX, a.maxRawX, a.minRawY, a.maxRawY, a.minRawZ, a.maxRawZ)) ∧
    (((a.setRotation v).minRawX,
       (a.setRotation v).maxRawX,
       (a.setRotation v).minRawY,
       (a.setRotation v).maxRawY,
       (a.setRotation v).minRawZ,
       (a.setRotation v).maxRawZ)
        = (a.minRawX, a.maxRawX, a.minRawY, a.maxRawY, a.minRawZ, a.maxRawZ)) := by
  have hrot : a.rotation % 256 % 4 = a.rotation := by omega
  refine ⟨⟨?_, ?_⟩, ⟨?_, ?_⟩, ⟨?_, ?_⟩, ⟨rfl, rfl, rfl⟩, ⟨rfl, rfl, rfl⟩, ⟨rfl, rfl, rfl⟩,
    ⟨rfl, rfl, rfl⟩, ⟨rfl, rfl, rfl⟩, ⟨rfl, rfl, rfl⟩, rfl, rfl, rfl⟩
  · unfold setDisplayWidth; simp only [setRotation_eq]; exact hrot
  · unfold setDisplayWidth; simp only [setRotation_eq]
  · unfold setDisplayHeight; simp only [setRotation_eq]; exact hrot
  · unfold setDisplayHeight; simp only [setRotation_eq]
  · simp only [setRotation_eq]
  · simp only [setRotation_eq]

/-- Witness of C19: the default resistive adapter (rotation 0) and the argument 7:
`setDisplayWidth(7)` keeps rotation 0 and native height 320. -/
theorem C19_setters_frame_witness :
    (setDisplayWidth (AdafruitResistiveTouchScreen.new 240 320).toGeometry 7).rotation
      = (AdafruitResistiveTouchScreen.new 240 320).rotation ∧
    (setDisplayWidth (AdafruitResistiveTouchScreen.new 240 320).toGeometry 7).nativeDisplayHeight
      = (AdafruitResistiveTouchScreen.new 240 320).nativeDisplayHeight :=
  (C19_setters_frame (AdafruitResistiveTouchScreen.new 240 320) 7 (by decide)).1

end TouchScreenAdapter
